import Mathlib

/-!
Shallow embedding of `UniformResourceProvider` from
`src/render/render_resource/resource_providers/uniform_resource_provider.rs`.

Entities, render resources and asset handles are modelled as `Nat`.
Rust `HashMap`s become association lists (`lookupA` / `insertA`), Rust
`HashSet`s become duplicate-free lists (`insertS`), and the fallible
operations (`unwrap`, `panic!`) become `Except String`.  The graphics
backend (`dyn Renderer`) is modelled as an explicit state record whose
operations append to creation / copy / removal logs, so that claims about
"how many buffers were created" are claims about those logs.
-/

namespace Bevy

abbrev Entity := Nat
abbrev RenderResource := Nat
abbrev THandle := Nat
abbrev TexHandle := Nat

/-- Association-list lookup, standing in for `HashMap::get`. -/
def lookupA {α β : Type} [DecidableEq α] : List (α × β) → α → Option β
  | [], _ => none
  | (k, v) :: rest, key => if k = key then some v else lookupA rest key

/-- Association-list insert/replace, standing in for `HashMap::insert`. -/
def insertA {α β : Type} [DecidableEq α] : List (α × β) → α → β → List (α × β)
  | [], key, val => [(key, val)]
  | (k, v) :: rest, key, val =>
    if k = key then (key, val) :: rest else (k, v) :: insertA rest key val

/-- Set insert, standing in for `HashSet::insert` (keeps first-insert order). -/
def insertS {α : Type} [DecidableEq α] (l : List α) (a : α) : List α :=
  if a ∈ l then l else l ++ [a]

/-- `pub const BIND_BUFFER_ALIGNMENT: u64 = 256;` -/
def BIND_BUFFER_ALIGNMENT : Nat := 256

/-- The modulus of the `offset as u32` narrowing cast applied when an
offset is stored into `info.offsets` (a `HashMap<Entity, u32>`). -/
def U32_MOD : Nat := 2 ^ 32

/-- Modelled from the spec: `BufferUsage` bit flags of the backend. -/
def COPY_SRC : Nat := 1

/-- Modelled from the spec: `BufferUsage` bit flags of the backend. -/
def COPY_DST : Nat := 2

/-- Modelled from the spec: `BufferUsage` bit flags of the backend. -/
def UNIFORM : Nat := 4

/-- The binding kinds of `BindType` that this provider distinguishes;
`other` stands for every remaining variant (the `_ => panic!` arm). -/
inductive BindType where
  | uniform
  | sampledTexture
  | sampler
  | other
deriving DecidableEq

/-- One entry of `UniformInfoIter`: a binding name and its kind. -/
structure UniformInfo where
  name : String
  bind_type : BindType

/-- Modelled from the spec: the `AsUniforms` data value as consumed here —
its binding descriptors (§4.1) and its accessors `get_uniform_bytes_ref`,
`get_uniform_bytes`, `get_uniform_texture`, `get_shader_defs`. -/
structure UniformsValue where
  fields : List UniformInfo
  bytesRef : String → Option (List Nat)
  bytesOwned : String → Option (List Nat)
  texture : String → Option TexHandle
  shader_defs : Option (List String)

/-- Modelled from the spec: a texture asset, only its raw `data` matters here
(the descriptors derived from it are opaque to this core). -/
structure Texture where
  data : List Nat
deriving DecidableEq

/-- `DynamicUniformBufferInfo` (§3 "Dynamic Buffer Info"): count, capacity
and the per-entity byte-offset table. -/
structure DynamicUniformBufferInfo where
  count : Nat
  capacity : Nat
  offsets : List (Entity × Nat)
deriving DecidableEq

/-- Modelled from the spec: `DynamicUniformBufferInfo::new()` starts empty. -/
def DynamicUniformBufferInfo.new : DynamicUniformBufferInfo :=
  { count := 0, capacity := 0, offsets := [] }

/-- A record of one `create_buffer`/`create_buffer_mapped` call: the handle
issued, the requested size, the usage flags, and (for mapped buffers) the
bytes written into it by the caller's closure. -/
structure BufferRecord where
  id : RenderResource
  size : Nat
  usage : Nat
  contents : Option (List Nat)
deriving DecidableEq

/-- Modelled from the spec: the backend (`dyn Renderer`) plus its
named/keyed resource tables (§6), as an explicit state.  `buffers`,
`textures`, `samplers`, `copies` and `removed` are append-only logs of the
corresponding backend calls; the remaining fields are the mutable tables. -/
structure RendererState where
  next_resource : Nat
  buffers : List BufferRecord
  textures : List (RenderResource × List Nat)
  samplers : List RenderResource
  copies : List (RenderResource × Nat × RenderResource × Nat × Nat)
  removed : List RenderResource
  entity_uniform_resources : List (Entity × String × RenderResource)
  texture_resources : List (TexHandle × RenderResource)
  texture_sampler_resources : List (TexHandle × RenderResource)
  named_resources : List (String × RenderResource)
  dynamic_uniform_buffer_infos : List (RenderResource × DynamicUniformBufferInfo)

/-- Modelled from the spec: `create_buffer(size, usage) -> handle`. -/
def RendererState.createBuffer (r : RendererState) (size usage : Nat) :
    RenderResource × RendererState :=
  (r.next_resource,
   { r with
     next_resource := r.next_resource + 1
     buffers := r.buffers ++ [⟨r.next_resource, size, usage, none⟩] })

/-- Modelled from the spec: `create_buffer_mapped(size, usage, write_fn)`;
the closure's effect is passed in as the final `contents`. -/
def RendererState.createBufferMapped (r : RendererState) (size usage : Nat)
    (contents : List Nat) : RenderResource × RendererState :=
  (r.next_resource,
   { r with
     next_resource := r.next_resource + 1
     buffers := r.buffers ++ [⟨r.next_resource, size, usage, some contents⟩] })

/-- Modelled from the spec: `copy_buffer_to_buffer`. -/
def RendererState.copyBufferToBuffer (r : RendererState)
    (src : RenderResource) (srcOff : Nat) (dst : RenderResource)
    (dstOff : Nat) (size : Nat) : RendererState :=
  { r with copies := r.copies ++ [(src, srcOff, dst, dstOff, size)] }

/-- Modelled from the spec: `remove_buffer`. -/
def RendererState.removeBuffer (r : RendererState) (b : RenderResource) :
    RendererState :=
  { r with removed := r.removed ++ [b] }

/-- Modelled from the spec: `create_texture(descriptor, data) -> handle`. -/
def RendererState.createTexture (r : RendererState) (data : List Nat) :
    RenderResource × RendererState :=
  (r.next_resource,
   { r with
     next_resource := r.next_resource + 1
     textures := r.textures ++ [(r.next_resource, data)] })

/-- Modelled from the spec: `create_sampler(descriptor) -> handle`. -/
def RendererState.createSampler (r : RendererState) :
    RenderResource × RendererState :=
  (r.next_resource,
   { r with
     next_resource := r.next_resource + 1
     samplers := r.samplers ++ [r.next_resource] })

/-- Modelled from the spec: `set_entity_uniform_resource(entity, name, resource)`,
the per-entity binding table (kept as an append-only log). -/
def RendererState.setEntityUniformResource (r : RendererState) (e : Entity)
    (nm : String) (res : RenderResource) : RendererState :=
  { r with entity_uniform_resources := r.entity_uniform_resources ++ [(e, nm, res)] }

/-- Modelled from the spec: `set_named_resource(name, handle)`. -/
def RendererState.setNamedResource (r : RendererState) (nm : String)
    (res : RenderResource) : RendererState :=
  { r with named_resources := insertA r.named_resources nm res }

/-- Modelled from the spec: `add_dynamic_uniform_buffer_info(resource, info)`. -/
def RendererState.addDynInfo (r : RendererState) (res : RenderResource)
    (info : DynamicUniformBufferInfo) : RendererState :=
  { r with dynamic_uniform_buffer_infos :=
      insertA r.dynamic_uniform_buffer_infos res info }

/-- Modelled from the spec: writing back through
`get_dynamic_uniform_buffer_info_mut`. -/
def RendererState.setDynInfo (r : RendererState) (res : RenderResource)
    (info : DynamicUniformBufferInfo) : RendererState :=
  { r with dynamic_uniform_buffer_infos :=
      insertA r.dynamic_uniform_buffer_infos res info }

/-- The empty backend state. -/
def RendererState.empty : RendererState :=
  { next_resource := 0, buffers := [], textures := [], samplers := []
    copies := [], removed := [], entity_uniform_resources := []
    texture_resources := [], texture_sampler_resources := []
    named_resources := [], dynamic_uniform_buffer_infos := [] }

/-- One per-binding-name entry of `uniform_buffer_info_resources`:
`(Option<RenderResource>, usize, HashSet<Entity>)`. -/
abbrev DynEntry := Option RenderResource × Nat × List Entity

/-- The provider's own state: the per-binding dynamic buffer table and the
per-asset-handle static resource cache
(`uniform_buffer_info_resources` and `asset_resources`). -/
structure Provider where
  uniform_buffer_info_resources : List (String × DynEntry)
  asset_resources : List (THandle × List (String × RenderResource))

/-- `UniformResourceProvider::new()`. -/
def Provider.new : Provider :=
  { uniform_buffer_info_resources := [], asset_resources := [] }

/-- Modelled from the spec: the `Resources` container as consumed here —
an optional `AssetStorage<T>` and an optional `AssetStorage<Texture>`. -/
structure ResourcesState where
  asset_storage : Option (THandle → Option UniformsValue)
  texture_storage : Option (TexHandle → Option Texture)

/-- One world entity with its optional components `T`, `Handle<T>`, and
`Renderable` (carrying its `shader_defs` set). -/
structure EntityRecord where
  id : Entity
  uniforms : Option UniformsValue
  handle : Option THandle
  renderable : Option (List String)

abbrev World := List EntityRecord

/-- Modelled from the spec: the legion query
`<(Read<T>, Read<Renderable>)>::query().iter_entities(world)` in its
deterministic iteration order. -/
def resourceQuery (w : World) : List (Entity × UniformsValue) :=
  w.filterMap fun er =>
    match er.uniforms, er.renderable with
    | some u, some _ => some (er.id, u)
    | _, _ => none

/-- Modelled from the spec: the legion query
`<(Read<Handle<T>>, Read<Renderable>)>::query().iter_entities(world)`. -/
def handleQuery (w : World) : List (Entity × THandle) :=
  w.filterMap fun er =>
    match er.handle, er.renderable with
    | some h, some _ => some (er.id, h)
    | _, _ => none

/-- The `BindType::Uniform` arm of `setup_entity_uniform_resources` for one
binding: the `dynamic_unforms` branch registers the entity into the
per-binding dynamic table; the asset branch resolves the static cache,
re-binds the entity, and then unconditionally stages and copies the
current bytes into the destination buffer. -/
def setupUniformBinding (prov : Provider) (rend : RendererState)
    (entity : Entity) (uniforms : UniformsValue) (nm : String)
    (dynamic_unforms : Bool) (asset_handle : Option THandle) :
    Except String (Provider × RendererState) :=
  if dynamic_unforms then
    let entry :=
      match lookupA prov.uniform_buffer_info_resources nm with
      | none => ((none : Option RenderResource), 0, ([] : List Entity))
      | some e => e
    let entry' : DynEntry := (entry.1, entry.2.1 + 1, insertS entry.2.2 entity)
    let table := insertA prov.uniform_buffer_info_resources nm entry'
    .ok ({ prov with uniform_buffer_info_resources := table }, rend)
  else
    match asset_handle with
    | none => .error "called Option.unwrap on a None value"
    | some handle =>
      let amap := (lookupA prov.asset_resources handle).getD []
      let (amap, render_resource, rend) :=
        match lookupA amap nm with
        | some render_resource => (amap, render_resource, rend)
        | none =>
          let size := BIND_BUFFER_ALIGNMENT
          let (resource, rend) := rend.createBuffer size (COPY_DST ||| UNIFORM)
          (insertA amap nm resource, resource, rend)
      let cache := insertA prov.asset_resources handle amap
      let prov := { prov with asset_resources := cache }
      let rend := rend.setEntityUniformResource entity nm render_resource
      match uniforms.bytesRef nm with
      | some uniform_bytes =>
        let (tmp_buffer, rend) :=
          rend.createBufferMapped uniform_bytes.length COPY_SRC uniform_bytes
        let rend := rend.copyBufferToBuffer tmp_buffer 0 render_resource 0
          uniform_bytes.length
        .ok (prov, rend.removeBuffer tmp_buffer)
      | none =>
        match uniforms.bytesOwned nm with
        | some uniform_bytes =>
          let (tmp_buffer, rend) :=
            rend.createBufferMapped uniform_bytes.length COPY_SRC uniform_bytes
          let rend := rend.copyBufferToBuffer tmp_buffer 0 render_resource 0
            uniform_bytes.length
          .ok (prov, rend.removeBuffer tmp_buffer)
        | none => .error ("failed to get data from uniform: " ++ nm)

/-- The `BindType::SampledTexture` arm: consult the texture cache, create
and cache the texture on a miss (fatal if the texture asset is absent),
then bind the resolved handle to the entity. -/
def setupSampledTextureBinding (rend : RendererState) (res : ResourcesState)
    (entity : Entity) (uniforms : UniformsValue) (nm : String) :
    Except String RendererState :=
  match uniforms.texture nm with
  | none => .error "called Option.unwrap on a None value"
  | some texture_handle =>
    match lookupA rend.texture_resources texture_handle with
    | some resource => .ok (rend.setEntityUniformResource entity nm resource)
    | none =>
      match res.texture_storage with
      | none => .error "called Option.unwrap on a None value"
      | some storage =>
        match storage texture_handle with
        | none => .error "called Option.unwrap on a None value"
        | some texture =>
          let (resource, rend) := rend.createTexture texture.data
          let cache := insertA rend.texture_resources texture_handle resource
          let rend := { rend with texture_resources := cache }
          .ok (rend.setEntityUniformResource entity nm resource)

/-- The `BindType::Sampler` arm: like the texture arm but against the
sampler cache. -/
def setupSamplerBinding (rend : RendererState) (res : ResourcesState)
    (entity : Entity) (uniforms : UniformsValue) (nm : String) :
    Except String RendererState :=
  match uniforms.texture nm with
  | none => .error "called Option.unwrap on a None value"
  | some texture_handle =>
    match lookupA rend.texture_sampler_resources texture_handle with
    | some resource => .ok (rend.setEntityUniformResource entity nm resource)
    | none =>
      match res.texture_storage with
      | none => .error "called Option.unwrap on a None value"
      | some storage =>
        match storage texture_handle with
        | none => .error "called Option.unwrap on a None value"
        | some _texture =>
          let (resource, rend) := rend.createSampler
          let cache := insertA rend.texture_sampler_resources texture_handle resource
          let rend := { rend with texture_sampler_resources := cache }
          .ok (rend.setEntityUniformResource entity nm resource)

/-- One iteration of the `for uniform_info in UniformInfoIter` loop. -/
def setupUniformField (res : ResourcesState) (entity : Entity)
    (uniforms : UniformsValue) (dynamic_unforms : Bool)
    (asset_handle : Option THandle) (st : Provider × RendererState)
    (info : UniformInfo) : Except String (Provider × RendererState) :=
  match info.bind_type with
  | .uniform =>
    setupUniformBinding st.1 st.2 entity uniforms info.name dynamic_unforms
      asset_handle
  | .sampledTexture =>
    (setupSampledTextureBinding st.2 res entity uniforms info.name).map
      fun rend => (st.1, rend)
  | .sampler =>
    (setupSamplerBinding st.2 res entity uniforms info.name).map
      fun rend => (st.1, rend)
  | .other => .error "encountered unsupported bind_type"

/-- `UniformResourceProvider::setup_entity_uniform_resources`. -/
def setupEntityUniformResources (prov : Provider) (rend : RendererState)
    (res : ResourcesState) (entity : Entity) (uniforms : UniformsValue)
    (dynamic_unforms : Bool) (asset_handle : Option THandle) :
    Except String (Provider × RendererState) :=
  uniforms.fields.foldlM
    (setupUniformField res entity uniforms dynamic_unforms asset_handle)
    (prov, rend)

/-- The offset-assignment loop of `setup_dynamic_uniform_buffers`, second
pass: walk the query entities from offset `off`, store for each
registered entity the current offset narrowed to `u32`
(`info.offsets.insert(entity, offset as u32)`), and step the `usize`
counter by one alignment unit; skip entities outside the registration
set without advancing. Returns the `(entity, offset)` insertions made
into `info.offsets`. -/
def offsetInsertionsFrom (off : Nat) :
    List Entity → List Entity → List (Entity × Nat)
  | [], _ => []
  | e :: rest, ents =>
    if e ∈ ents then
      (e, off % U32_MOD) ::
        offsetInsertionsFrom (off + BIND_BUFFER_ALIGNMENT) rest ents
    else
      offsetInsertionsFrom off rest ents

/-- Offsets assigned in one frame for one dynamic buffer, starting at 0. -/
def offsetInsertions (queryEnts ents : List Entity) : List (Entity × Nat) :=
  offsetInsertionsFrom 0 queryEnts ents

/-- `mapped[offset..offset+len].copy_from_slice(bytes)` on a byte list. -/
def writeAt (buf : List Nat) (off : Nat) (bytes : List Nat) : List Nat :=
  buf.take off ++ bytes ++ buf.drop (off + bytes.length)

/-- One iteration of the byte-packing closure passed to
`create_buffer_mapped`: a registered entity's bytes are written at the
running offset, which then advances; an entity outside the registration
set — or a registered entity for which neither accessor yields bytes — is
skipped without advancing the offset. -/
def packStep (nm : String) (ents : List Entity) (st : List Nat × Nat)
    (p : Entity × UniformsValue) : List Nat × Nat :=
  if p.1 ∈ ents then
    match p.2.bytesRef nm with
    | some bytes => (writeAt st.1 st.2 bytes, st.2 + BIND_BUFFER_ALIGNMENT)
    | none =>
      match p.2.bytesOwned nm with
      | some bytes => (writeAt st.1 st.2 bytes, st.2 + BIND_BUFFER_ALIGNMENT)
      | none => st
  else st

/-- The full byte-packing closure: fold `packStep` over the query pairs,
starting from a zeroed mapped region of `size` bytes. -/
def packBytes (pairs : List (Entity × UniformsValue)) (ents : List Entity)
    (nm : String) (size : Nat) : List Nat :=
  (pairs.foldl (packStep nm ents) (List.replicate size 0, 0)).1

/-- First pass of `setup_dynamic_uniform_buffers`: for entries that already
have a buffer, refresh the recorded `count` only; for entries without one,
allocate `capacity = count * 2` alignment units, record the info and
publish the named resource. -/
def allocateDynamicBuffers :
    List (String × DynEntry) → RendererState →
    Except String (List (String × DynEntry) × RendererState)
  | [], rend => .ok ([], rend)
  | (nm, (resource, count, ents)) :: rest, rend =>
    match resource with
    | some r =>
      match lookupA rend.dynamic_uniform_buffer_infos r with
      | none => .error "called Option.unwrap on a None value"
      | some info =>
        let rend := rend.setDynInfo r { info with count := count }
        (allocateDynamicBuffers rest rend).map fun (es, rend') =>
          ((nm, (some r, count, ents)) :: es, rend')
    | none =>
      let capacity := count * 2
      let size := BIND_BUFFER_ALIGNMENT * capacity
      let (created_resource, rend) :=
        rend.createBuffer size (COPY_DST ||| UNIFORM)
      let info : DynamicUniformBufferInfo :=
        { DynamicUniformBufferInfo.new with count := count, capacity := capacity }
      let rend := rend.addDynInfo created_resource info
      let rend := rend.setNamedResource nm created_resource
      (allocateDynamicBuffers rest rend).map fun (es, rend') =>
        ((nm, (some created_resource, count, ents)) :: es, rend')

/-- Second pass of `setup_dynamic_uniform_buffers`: for each entry, assign
this frame's offsets into `info.offsets`, pack all registered entities'
bytes into a freshly created staging buffer, copy it whole into the
destination buffer and release the staging buffer. -/
def copyDynamicBuffers (w : World) :
    List (String × DynEntry) → RendererState → Except String RendererState
  | [], rend => .ok rend
  | (nm, (resource, _count, ents)) :: rest, rend =>
    match resource with
    | none => .error "called Option.unwrap on a None value"
    | some resource =>
      match lookupA rend.dynamic_uniform_buffer_infos resource with
      | none => .error "called Option.unwrap on a None value"
      | some info =>
        let size := BIND_BUFFER_ALIGNMENT * info.count
        let inserts := offsetInsertions ((resourceQuery w).map Prod.fst) ents
        let info := { info with offsets :=
                        inserts.foldl (fun m p => insertA m p.1 p.2) info.offsets }
        let rend := rend.setDynInfo resource info
        let (mapped_buffer_resource, rend) :=
          rend.createBufferMapped size COPY_SRC
            (packBytes (resourceQuery w) ents nm size)
        let rend :=
          rend.copyBufferToBuffer mapped_buffer_resource 0 resource 0 size
        let rend := rend.removeBuffer mapped_buffer_resource
        copyDynamicBuffers w rest rend

/-- `UniformResourceProvider::setup_dynamic_uniform_buffers`. -/
def setupDynamicUniformBuffers (prov : Provider) (rend : RendererState)
    (w : World) : Except String (Provider × RendererState) := do
  let (entries, rend) ←
    allocateDynamicBuffers prov.uniform_buffer_info_resources rend
  let rend ← copyDynamicBuffers w entries rend
  .ok ({ prov with uniform_buffer_info_resources := entries }, rend)

/-- `UniformResourceProvider::update_asset_uniforms`: for each asset-backed
entity whose asset is present, run the non-dynamic binding dispatch;
entities whose asset is absent are skipped. -/
def updateAssetUniforms (prov : Provider) (rend : RendererState)
    (res : ResourcesState) (w : World) :
    Except String (Provider × RendererState) :=
  match res.asset_storage with
  | none => .ok (prov, rend)
  | some asset_storage =>
    (handleQuery w).foldlM
      (fun (st : Provider × RendererState) p =>
        match asset_storage p.2 with
        | none => .ok st
        | some uniforms =>
          setupEntityUniformResources st.1 st.2 res p.1 uniforms false
            (some p.2))
      (prov, rend)

/-- The count-reset loop at the top of `update`: for every existing entry,
unwrap its resource, unwrap the backend's info, and zero both counts.
The registration set is left untouched. -/
def resetCounts :
    List (String × DynEntry) → RendererState →
    Except String (List (String × DynEntry) × RendererState)
  | [], rend => .ok ([], rend)
  | (nm, (resource, _count, ents)) :: rest, rend =>
    match resource with
    | none => .error "called Option.unwrap on a None value"
    | some r =>
      match lookupA rend.dynamic_uniform_buffer_infos r with
      | none => .error "called Option.unwrap on a None value"
      | some info =>
        let rend := rend.setDynInfo r { info with count := 0 }
        (resetCounts rest rend).map fun (es, rend') =>
          ((nm, (some r, 0, ents)) :: es, rend')

/-- The direct-valued shader-def pass: union each direct entity's
shader defs into its `Renderable`'s set. -/
def applyShaderDefsDirect (w : World) : World :=
  w.map fun er =>
    match er.uniforms, er.renderable with
    | some u, some defs =>
      match u.shader_defs with
      | some ds => { er with renderable := some (ds.foldl insertS defs) }
      | none => er
    | _, _ => er

/-- The asset-backed shader-def pass: for every entity holding a handle,
`asset_storage.get(&handle).unwrap()` — fatal when the asset is absent —
then union its shader defs into the `Renderable`'s set. -/
def applyShaderDefsAsset (res : ResourcesState) (w : World) :
    Except String World :=
  match res.asset_storage with
  | none => .ok w
  | some asset_storage =>
    w.mapM fun er =>
      match er.handle, er.renderable with
      | some h, some defs =>
        match asset_storage h with
        | none => .error "called Option.unwrap on a None value"
        | some u =>
          match u.shader_defs with
          | some ds => .ok { er with renderable := some (ds.foldl insertS defs) }
          | none => .ok er
      | _, _ => .ok er

/-- `UniformResourceProvider::update` (also the body of the provider's
first-use entry point, which just calls `update`). -/
def update (prov : Provider) (rend : RendererState) (res : ResourcesState)
    (w : World) : Except String (Provider × RendererState × World) := do
  let (entries, rend) ← resetCounts prov.uniform_buffer_info_resources rend
  let prov := { prov with uniform_buffer_info_resources := entries }
  let (prov, rend) ← updateAssetUniforms prov rend res w
  let (prov, rend) ←
    (resourceQuery w).foldlM
      (fun (st : Provider × RendererState) p =>
        setupEntityUniformResources st.1 st.2 res p.1 p.2 true none)
      (prov, rend)
  let (prov, rend) ← setupDynamicUniformBuffers prov rend w
  let w := applyShaderDefsDirect w
  let w ← applyShaderDefsAsset res w
  .ok (prov, rend, w)

/-! ### Derived views of the state used by the statements below -/

/-- The destination (uniform) buffers ever created: creation-log records
whose usage is `COPY_DST | UNIFORM`.  Staging buffers (`COPY_SRC`) are not
destination buffers. -/
def dstBuffers (r : RendererState) : List BufferRecord :=
  r.buffers.filter fun b => b.usage = (COPY_DST ||| UNIFORM)

/-- The static-cache resource recorded for a `(handle, binding-name)` pair. -/
def lookupAsset (p : Provider) (h : THandle) (nm : String) :
    Option RenderResource :=
  lookupA ((lookupA p.asset_resources h).getD []) nm

/-- The registration set recorded in a per-binding-name entry list. -/
def setOfEntries (es : List (String × DynEntry)) (nm : String) : List Entity :=
  ((lookupA es nm).map fun q => q.2.2).getD []

/-- The registration set of one binding name in the provider's dynamic
buffer table. -/
def entitySetOf (p : Provider) (nm : String) : List Entity :=
  setOfEntries p.uniform_buffer_info_resources nm

/-- Every entry whose buffer exists has a backend-side info record. -/
def EntriesInv (es : List (String × DynEntry)) (r : RendererState) : Prop :=
  ∀ q ∈ es, ∀ rsc, q.2.1 = some rsc →
    (lookupA r.dynamic_uniform_buffer_infos rsc).isSome = true

/-- Every entry's buffer resource has been allocated. -/
def EntriesAllSome (es : List (String × DynEntry)) : Prop :=
  ∀ q ∈ es, q.2.1.isSome = true

/-- `EntriesInv` for the provider's own table. -/
def DynInv (p : Provider) (r : RendererState) : Prop :=
  EntriesInv p.uniform_buffer_info_resources r

/-- `EntriesAllSome` for the provider's own table. -/
def AllSome (p : Provider) : Prop :=
  EntriesAllSome p.uniform_buffer_info_resources

/-! ### Association-list lemmas -/

theorem lookupA_insertA_self {α β : Type} [DecidableEq α]
    (l : List (α × β)) (k : α) (v : β) :
    lookupA (insertA l k v) k = some v := by
  induction l with
  | nil => simp [insertA, lookupA]
  | cons hd tl ih =>
    by_cases h : hd.1 = k <;> simp [insertA, lookupA, h, ih]

theorem lookupA_insertA_ne {α β : Type} [DecidableEq α]
    (l : List (α × β)) (k k' : α) (v : β) (h : k' ≠ k) :
    lookupA (insertA l k v) k' = lookupA l k' := by
  have hk : k ≠ k' := fun he => h he.symm
  induction l with
  | nil => simp [insertA, lookupA, hk]
  | cons hd tl ih =>
    by_cases hh : hd.1 = k
    · simp [insertA, lookupA, hh, hk]
    · simp [insertA, lookupA, hh, ih]

theorem lookupA_mem {α β : Type} [DecidableEq α]
    {l : List (α × β)} {k : α} {v : β} (h : lookupA l k = some v) :
    (k, v) ∈ l := by
  induction l with
  | nil => simp [lookupA] at h
  | cons hd tl ih =>
    obtain ⟨a, b⟩ := hd
    by_cases hh : a = k
    · simp [lookupA, hh] at h
      subst hh
      subst h
      exact List.mem_cons_self _ _
    · simp [lookupA, hh] at h
      exact List.mem_cons_of_mem _ (ih h)

theorem mem_insertA {α β : Type} [DecidableEq α]
    {l : List (α × β)} {k : α} {v : β} {a : α × β}
    (h : a ∈ insertA l k v) : a = (k, v) ∨ a ∈ l := by
  induction l with
  | nil => simpa [insertA] using h
  | cons hd tl ih =>
    by_cases hh : hd.1 = k
    · simp [insertA, hh] at h
      rcases h with h | h
      · exact Or.inl h
      · exact Or.inr (List.mem_cons_of_mem _ h)
    · simp [insertA, hh] at h
      rcases h with h | h
      · exact Or.inr (by simp [h])
      · rcases ih h with h2 | h2
        · exact Or.inl h2
        · exact Or.inr (List.mem_cons_of_mem _ h2)

theorem mem_insertS {α : Type} [DecidableEq α] {l : List α} {a : α} (b : α)
    (h : a ∈ l) : a ∈ insertS l b := by
  unfold insertS
  split <;> simp [h]

theorem self_mem_insertS {α : Type} [DecidableEq α] (l : List α) (b : α) :
    b ∈ insertS l b := by
  unfold insertS
  split <;> simp_all

/-- Invariant preservation through a `foldlM` over `Except`. -/
theorem foldlM_except_inv {σ α ε : Type} {f : σ → α → Except ε σ}
    {P : σ → Prop} (hf : ∀ s a s', P s → f s a = .ok s' → P s') :
    ∀ (l : List α) (s s' : σ), P s → List.foldlM f s l = .ok s' → P s' := by
  intro l
  induction l with
  | nil =>
    intro s s' hs heq
    simp [List.foldlM, pure, Except.pure] at heq
    exact heq ▸ hs
  | cons a l ih =>
    intro s s' hs heq
    rw [List.foldlM] at heq
    cases hfa : f s a with
    | error e => simp [hfa, bind, Except.bind] at heq
    | ok s2 =>
      simp only [hfa, bind, Except.bind] at heq
      exact ih s2 s' (hf s a s2 hs hfa) heq

/-- Folding a single element is just one application. -/
theorem foldlM_singleton {σ α ε : Type} (f : σ → α → Except ε σ) (s : σ)
    (a : α) : List.foldlM f s [a] = f s a := by
  show (f s a >>= fun s2 => List.foldlM f s2 []) = f s a
  cases f s a <;> rfl

/-- `setup_entity_uniform_resources` on a value exposing a single binding
is exactly that binding's arm. -/
theorem setupEntity_single (prov : Provider) (rend : RendererState)
    (res : ResourcesState) (e : Entity) (u : UniformsValue) (f : UniformInfo)
    (dyn : Bool) (ah : Option THandle) (hf : u.fields = [f]) :
    setupEntityUniformResources prov rend res e u dyn ah =
      setupUniformField res e u dyn ah (prov, rend) f := by
  rw [setupEntityUniformResources, hf, foldlM_singleton]

/-- `setup_entity_uniform_resources` on a value exposing a single
`Uniform` binding is exactly the `Uniform` arm. -/
theorem setupEntity_single_uniform (prov : Provider) (rend : RendererState)
    (res : ResourcesState) (e : Entity) (u : UniformsValue) (nm : String)
    (dyn : Bool) (ah : Option THandle)
    (hf : u.fields = [⟨nm, .uniform⟩]) :
    setupEntityUniformResources prov rend res e u dyn ah =
      setupUniformBinding prov rend e u nm dyn ah := by
  rw [setupEntityUniformResources, hf, foldlM_singleton]
  rfl

/-! ### Concrete scenario inputs -/

/-- A direct uniform value with one 4-byte `Uniform` binding `"Color"`. -/
def uColor (c : Nat) : UniformsValue :=
  { fields := [⟨"Color", .uniform⟩]
    bytesRef := fun n => if n = "Color" then some [c, c + 1, c + 2, c + 3] else none
    bytesOwned := fun _ => none
    texture := fun _ => none
    shader_defs := none }

/-- Three direct-valued entities, 4 bytes each under binding `"Color"`. -/
def threeColorWorld : World :=
  [⟨1, some (uColor 10), none, some []⟩,
   ⟨2, some (uColor 20), none, some []⟩,
   ⟨3, some (uColor 30), none, some []⟩]

/-- No asset storages registered. -/
def noAssets : ResourcesState := ⟨none, none⟩

/-- A single direct-valued `"Color"` entity. -/
def oneColorWorld : World := [⟨1, some (uColor 10), none, some []⟩]

/-- A uniform value whose `"Color"` binding yields no bytes from either
accessor. -/
def uNoBytes : UniformsValue :=
  { fields := [⟨"Color", .uniform⟩]
    bytesRef := fun _ => none
    bytesOwned := fun _ => none
    texture := fun _ => none
    shader_defs := none }

/-- One entity whose `Uniform` binding can produce no bytes. -/
def noBytesWorld : World := [⟨1, some uNoBytes, none, some []⟩]

/-- An asset-backed value with one `Uniform` binding `"Tint"`. -/
def uTint : UniformsValue :=
  { fields := [⟨"Tint", .uniform⟩]
    bytesRef := fun n => if n = "Tint" then some [9, 9, 9, 9] else none
    bytesOwned := fun _ => none
    texture := fun _ => none
    shader_defs := none }

/-- A provider whose static cache already holds resource 42 for the pair
`(handle 7, "Tint")`. -/
def cachedTintProvider : Provider := ⟨[], [(7, [("Tint", 42)])]⟩

/-- One entity carrying asset handle 5 and a `Renderable`, with an asset
storage registered in which handle 5 is not yet loaded. -/
def missingAssetWorld : World := [⟨1, none, some 5, some []⟩]

/-- Asset storage registered for the value type, but empty. -/
def missingAssetRes : ResourcesState := ⟨some (fun _ => none), none⟩

/-! ### C8 -/

set_option maxRecDepth 100000 in
/-- C8: with exactly 3 direct-valued entities each carrying a single
4-byte `Uniform` binding `"Color"`, one `update` creates a dynamic buffer
published under `"Color"` with capacity 6 alignment units (size
`256 × 6`), `logical_count = 3`, offsets `{0, 256, 512}`, and each
entity's 4 bytes sit at its assigned offset inside the staging buffer
that is copied whole into the destination buffer. -/
theorem c8_three_color_entities_scenario :
    ((update Provider.new RendererState.empty noAssets threeColorWorld).toOption.map
       fun t =>
         (lookupA t.2.1.named_resources "Color",
          (lookupA t.2.1.dynamic_uniform_buffer_infos 0).map
            fun i => (i.count, i.capacity, i.offsets),
          t.2.1.buffers.map fun b => (b.id, b.size, b.usage),
          (t.2.1.buffers.filterMap fun b => b.contents).map
            fun c => (c.length, (c.drop 0).take 4, (c.drop 256).take 4,
                      (c.drop 512).take 4),
          t.2.1.copies,
          t.2.1.removed)) =
      some (some 0,
            some (3, 6, [(1, 0), (2, 256), (3, 512)]),
            [(0, BIND_BUFFER_ALIGNMENT * 6, COPY_DST ||| UNIFORM),
             (1, BIND_BUFFER_ALIGNMENT * 3, COPY_SRC)],
            [(BIND_BUFFER_ALIGNMENT * 3, [10, 11, 12, 13], [20, 21, 22, 23],
              [30, 31, 32, 33])],
            [(1, 0, 0, 0, BIND_BUFFER_ALIGNMENT * 3)],
            [1]) := by
  rfl

/-! ### C7 -/

/-- C7 (code bug): on a world with one asset-backed entity whose asset is
not yet in the asset store, the resource-resolution pass itself does skip
the entity silently, but `update` as a whole does not complete normally:
the shader-def propagation pass unwraps the missing asset and aborts. -/
theorem c7_missing_asset_aborts_update :
    updateAssetUniforms Provider.new RendererState.empty missingAssetRes
        missingAssetWorld = .ok (Provider.new, RendererState.empty) ∧
    update Provider.new RendererState.empty missingAssetRes missingAssetWorld =
      .error "called Option.unwrap on a None value" := by
  exact ⟨rfl, rfl⟩

/-! ### C1 -/

/-- C1 counterexample: entity 1 is registered to the `"Color"` dynamic
buffer in frame 1, then removed from the world; on the very next `update`
it is still a member of that buffer's registration set — the set is not
rebuilt from scratch. -/
theorem c1_counterexample_stale_registration :
    ((update Provider.new RendererState.empty noAssets oneColorWorld).toOption.bind
       fun t =>
         (update t.1 t.2.1 noAssets []).toOption.map
           fun t2 => entitySetOf t2.1 "Color") = some [1] := by
  decide

/-! ### C2 -/

/-- C2: for a shared handle and a `Uniform` binding name, the asset-backed
resolution path creates exactly one destination (`COPY_DST | UNIFORM`)
buffer per `(handle, name)` pair: on first resolution it creates it and
records it in the static cache, and on every later resolution it returns
the identical cached handle, binds the requesting entity to it, and
creates no new destination buffer. -/
theorem c2_asset_path_dedups_destination_buffer (prov : Provider)
    (rend : RendererState) (res : ResourcesState) (e : Entity) (h : THandle)
    (nm : String) (u : UniformsValue) (bs : List Nat)
    (hf : u.fields = [⟨nm, .uniform⟩]) (hb : u.bytesRef nm = some bs) :
    (lookupAsset prov h nm = none →
      ((setupEntityUniformResources prov rend res e u false (some h)).toOption.map
         fun t => (lookupAsset t.1 h nm, dstBuffers t.2, t.2.entity_uniform_resources)) =
        some (some rend.next_resource,
              dstBuffers rend ++
                [⟨rend.next_resource, BIND_BUFFER_ALIGNMENT, COPY_DST ||| UNIFORM, none⟩],
              rend.entity_uniform_resources ++ [(e, nm, rend.next_resource)])) ∧
    (∀ rsc, lookupAsset prov h nm = some rsc →
      ((setupEntityUniformResources prov rend res e u false (some h)).toOption.map
         fun t => (lookupAsset t.1 h nm, dstBuffers t.2, t.2.entity_uniform_resources)) =
        some (some rsc, dstBuffers rend,
              rend.entity_uniform_resources ++ [(e, nm, rsc)])) := by
  rw [setupEntity_single_uniform prov rend res e u nm false (some h) hf]
  rw [lookupAsset] at *
  constructor
  · intro hmiss
    simp only [setupUniformBinding, Bool.false_eq_true, if_false, hmiss, hb,
      RendererState.createBuffer, RendererState.createBufferMapped,
      RendererState.copyBufferToBuffer, RendererState.removeBuffer,
      RendererState.setEntityUniformResource, Except.toOption, Option.map,
      lookupAsset, dstBuffers]
    simp [lookupA_insertA_self, List.filter_append, COPY_SRC, COPY_DST, UNIFORM]
  · intro rsc hhit
    simp only [setupUniformBinding, Bool.false_eq_true, if_false, hhit, hb,
      RendererState.createBufferMapped, RendererState.copyBufferToBuffer,
      RendererState.removeBuffer, RendererState.setEntityUniformResource,
      Except.toOption, Option.map, lookupAsset, dstBuffers]
    simp [lookupA_insertA_self, hhit, List.filter_append, COPY_SRC, COPY_DST, UNIFORM]

/-! ### C3 -/

/-- C3 counterexample: the static cache already holds resource 42 for
`(handle 7, "Tint")`, yet resolving that pair again creates a staging
(`COPY_SRC`) buffer with the current bytes, issues a buffer-to-buffer
copy into the cached buffer, and removes the staging buffer — the hit
path does re-upload. -/
theorem c3_counterexample_hit_reuploads :
    ((setupEntityUniformResources cachedTintProvider RendererState.empty
        noAssets 1 uTint false (some 7)).toOption.map
       fun t =>
         (t.2.copies,
          t.2.buffers.map fun b => (b.id, b.size, b.usage, b.contents),
          t.2.removed,
          t.2.entity_uniform_resources)) =
      some ([(0, 0, 42, 0, 4)],
            [(0, 4, COPY_SRC, some [9, 9, 9, 9])],
            [0],
            [(1, "Tint", 42)]) := by
  rfl

/-- C3 (amended): when the static cache already holds a resource for the
`(handle, binding-name)` pair, resolving the pair again re-associates the
cached resource with the requesting entity AND re-uploads the current
bytes: exactly one staging (`COPY_SRC`) buffer is created with those
bytes, one buffer-to-buffer copy into the cached buffer is issued, and
the staging buffer is then removed; the cache entry itself is unchanged. -/
theorem c3_amended_hit_rebinds_and_reuploads (prov : Provider)
    (rend : RendererState) (res : ResourcesState) (e : Entity) (h : THandle)
    (nm : String) (u : UniformsValue) (bs : List Nat) (rsc : RenderResource)
    (hf : u.fields = [⟨nm, .uniform⟩]) (hb : u.bytesRef nm = some bs)
    (hhit : lookupAsset prov h nm = some rsc) :
    ((setupEntityUniformResources prov rend res e u false (some h)).toOption.map
       fun t => (t.2.buffers, t.2.copies, t.2.removed,
                 t.2.entity_uniform_resources, lookupAsset t.1 h nm)) =
      some (rend.buffers ++ [⟨rend.next_resource, bs.length, COPY_SRC, some bs⟩],
            rend.copies ++ [(rend.next_resource, 0, rsc, 0, bs.length)],
            rend.removed ++ [rend.next_resource],
            rend.entity_uniform_resources ++ [(e, nm, rsc)],
            some rsc) := by
  rw [setupEntity_single_uniform prov rend res e u nm false (some h) hf]
  rw [lookupAsset] at hhit
  simp only [setupUniformBinding, Bool.false_eq_true, if_false, hhit, hb,
    RendererState.createBufferMapped, RendererState.copyBufferToBuffer,
    RendererState.removeBuffer, RendererState.setEntityUniformResource,
    Except.toOption, Option.map, lookupAsset]
  simp [lookupA_insertA_self, hhit]

/-! ### C6 -/

/-- C6 counterexample: a world whose only entity declares a `Uniform`
binding yielding bytes from neither accessor goes through the dynamic
byte-packing path, yet `update` completes without any fatal error — the
entity is silently skipped there rather than aborting the frame. -/
theorem c6_counterexample_silent_skip_in_packing :
    (update Provider.new RendererState.empty noAssets noBytesWorld).isOk = true := by
  decide

/-- C6 (amended): a `Uniform` binding that yields bytes from neither
accessor is a fatal error in the asset-backed upload path (the error names
the binding), but in the dynamic byte-packing path such an entity is
silently skipped: nothing is written for it and the packing offset does
not advance. -/
theorem c6_amended_fatal_asset_path_silent_packing (prov : Provider)
    (rend : RendererState) (res : ResourcesState) (e : Entity) (h : THandle)
    (nm : String) (u : UniformsValue)
    (hf : u.fields = [⟨nm, .uniform⟩]) (h1 : u.bytesRef nm = none)
    (h2 : u.bytesOwned nm = none) :
    setupEntityUniformResources prov rend res e u false (some h) =
      .error ("failed to get data from uniform: " ++ nm) ∧
    (∀ (ents : List Entity) (st : List Nat × Nat) (e0 : Entity),
      packStep nm ents st (e0, u) = st) := by
  constructor
  · rw [setupEntity_single_uniform prov rend res e u nm false (some h) hf]
    unfold setupUniformBinding
    cases hcase : lookupA ((lookupA prov.asset_resources h).getD []) nm <;>
      simp [hcase, h1, h2]
  · intro ents st e0
    unfold packStep
    simp [h1, h2]

/-! ### C9 -/

/-- C9: resolving a `SampledTexture` binding that references a texture
asset handle creates the GPU texture exactly once: on a cache hit the
call only binds the requesting entity to the cached handle and performs
no texture creation (the state changes by exactly that one binding); on a
cache miss it creates one texture from the asset data, caches it under
the asset handle, and binds the entity to it.  The behaviour does not
depend on the dynamic flag or the asset handle argument. -/
theorem c9_sampled_texture_created_once (prov : Provider)
    (rend : RendererState) (res : ResourcesState) (e : Entity) (nm : String)
    (u : UniformsValue) (th : TexHandle) (dyn : Bool) (ah : Option THandle)
    (hf : u.fields = [⟨nm, .sampledTexture⟩]) (ht : u.texture nm = some th) :
    (∀ rsc, lookupA rend.texture_resources th = some rsc →
      setupEntityUniformResources prov rend res e u dyn ah =
        .ok (prov, rend.setEntityUniformResource e nm rsc)) ∧
    (∀ storage tex, lookupA rend.texture_resources th = none →
      res.texture_storage = some storage → storage th = some tex →
      ((setupEntityUniformResources prov rend res e u dyn ah).toOption.map
         fun t => (t.1.asset_resources, t.2.textures,
                   lookupA t.2.texture_resources th,
                   t.2.entity_uniform_resources)) =
        some (prov.asset_resources,
              rend.textures ++ [(rend.next_resource, tex.data)],
              some rend.next_resource,
              rend.entity_uniform_resources ++ [(e, nm, rend.next_resource)])) := by
  rw [setupEntity_single prov rend res e u ⟨nm, .sampledTexture⟩ dyn ah hf]
  constructor
  · intro rsc hhit
    simp [setupUniformField, setupSampledTextureBinding, ht, hhit, Except.map]
  · intro storage tex hmiss hstor htex
    simp [setupUniformField, setupSampledTextureBinding, ht, hmiss, hstor,
      htex, RendererState.createTexture, RendererState.setEntityUniformResource,
      lookupA_insertA_self, Except.map, Except.toOption]

/-! ### C4 -/

/-- C4: on the first allocation of a dynamic buffer for a binding with
recorded count `n`, the recorded capacity is exactly `2n` alignment units
and the created destination buffer has size `alignment * 2n`; on any
later frame the entry keeps its buffer — no destination buffer is created
(no reallocation), the recorded capacity is left unchanged even when the
fresh count `n` exceeds it, and only the recorded count is updated. -/
theorem c4_first_alloc_doubles_then_never_reallocates (nm : String)
    (n c : Nat) (ents : List Entity)
    (ar : List (THandle × List (String × RenderResource)))
    (rend : RendererState) (w : World) (rsc : RenderResource)
    (info : DynamicUniformBufferInfo)
    (hinfo : lookupA rend.dynamic_uniform_buffer_infos rsc = some info)
    (hcap : info.capacity = c) :
    (((setupDynamicUniformBuffers ⟨[(nm, (none, n, ents))], ar⟩ rend w).toOption.map
        fun t =>
          (t.1.uniform_buffer_info_resources,
           (lookupA t.2.dynamic_uniform_buffer_infos rend.next_resource).map
             fun i => (i.count, i.capacity),
           dstBuffers t.2)) =
      some ([(nm, (some rend.next_resource, n, ents))],
            some (n, n * 2),
            dstBuffers rend ++
              [⟨rend.next_resource, BIND_BUFFER_ALIGNMENT * (n * 2),
                COPY_DST ||| UNIFORM, none⟩])) ∧
    (((setupDynamicUniformBuffers ⟨[(nm, (some rsc, n, ents))], ar⟩ rend w).toOption.map
        fun t =>
          (t.1.uniform_buffer_info_resources,
           (lookupA t.2.dynamic_uniform_buffer_infos rsc).map
             fun i => (i.count, i.capacity),
           dstBuffers t.2)) =
      some ([(nm, (some rsc, n, ents))],
            some (n, c),
            dstBuffers rend)) := by
  constructor
  · simp [setupDynamicUniformBuffers, allocateDynamicBuffers,
      copyDynamicBuffers, RendererState.createBuffer, RendererState.addDynInfo,
      RendererState.setNamedResource, RendererState.setDynInfo,
      RendererState.createBufferMapped, RendererState.copyBufferToBuffer,
      RendererState.removeBuffer, DynamicUniformBufferInfo.new,
      lookupA_insertA_self, bind, Except.bind, Except.map, Except.toOption,
      dstBuffers, List.filter_append, COPY_SRC, COPY_DST, UNIFORM]
  · simp [setupDynamicUniformBuffers, allocateDynamicBuffers,
      copyDynamicBuffers, hinfo, hcap, RendererState.setDynInfo,
      RendererState.createBufferMapped, RendererState.copyBufferToBuffer,
      RendererState.removeBuffer, lookupA_insertA_self, bind, Except.bind,
      Except.map, Except.toOption, dstBuffers, List.filter_append,
      COPY_SRC, COPY_DST, UNIFORM]

/-! ### C5 -/

/-- The first components of the frame's offset insertions are exactly the
query entities that are in the registration set, in query order. -/
theorem offsetInsertionsFrom_map_fst (ents : List Entity) :
    ∀ (q : List Entity) (off : Nat),
      (offsetInsertionsFrom off q ents).map Prod.fst =
        q.filter fun x => decide (x ∈ ents) := by
  intro q
  induction q with
  | nil => intro off; rfl
  | cons e rest ih =>
    intro off
    by_cases he : e ∈ ents <;>
      simp [offsetInsertionsFrom, List.filter_cons, he, ih]

/-- The stored offsets are `off, off + A, off + 2A, …`, one step per
registered entity, each narrowed by the `as u32` cast. -/
theorem offsetInsertionsFrom_map_snd (ents : List Entity) :
    ∀ (q : List Entity) (off : Nat),
      (offsetInsertionsFrom off q ents).map Prod.snd =
        (List.range (q.filter fun x => decide (x ∈ ents)).length).map
          fun k => (off + BIND_BUFFER_ALIGNMENT * k) % U32_MOD := by
  intro q
  induction q with
  | nil => intro off; rfl
  | cons e rest ih =>
    intro off
    by_cases he : e ∈ ents
    · simp only [offsetInsertionsFrom, he, if_true, List.map_cons,
        List.filter_cons, decide_eq_true_eq, List.length_cons,
        List.range_succ_eq_map, List.map_map]
      rw [ih (off + BIND_BUFFER_ALIGNMENT)]
      congr 1
      simp
      intro a _
      congr 1
      ring
    · simp [offsetInsertionsFrom, List.filter_cons, he, ih]

/-- Membership in the offset insertions implies membership in both the
query list and the registration set. -/
theorem offsetInsertionsFrom_mem (ents : List Entity) :
    ∀ (q : List Entity) (off : Nat) (pr : Entity × Nat),
      pr ∈ offsetInsertionsFrom off q ents → pr.1 ∈ q ∧ pr.1 ∈ ents := by
  intro q
  induction q with
  | nil => intro off pr hpr; simp [offsetInsertionsFrom] at hpr
  | cons e rest ih =>
    intro off pr hpr
    by_cases he : e ∈ ents
    · simp only [offsetInsertionsFrom, he, if_true, List.mem_cons] at hpr
      rcases hpr with hpr | hpr
      · subst hpr; exact ⟨List.mem_cons_self _ _, he⟩
      · rcases ih _ pr hpr with ⟨h1, h2⟩
        exact ⟨List.mem_cons_of_mem _ h1, h2⟩
    · simp only [offsetInsertionsFrom, he, if_false] at hpr
      rcases ih _ pr hpr with ⟨h1, h2⟩
      exact ⟨List.mem_cons_of_mem _ h1, h2⟩

/-- C5: each frame's offset assignment walks the query in order and hands
the k-th registered entity the offset `k × alignment`: the assigned
entities are exactly the query entities inside the registration set (in
query order), the offsets are `0, 256, 512, …` in that order, every
offset is a multiple of the alignment, no two insertions share an offset,
and an entity outside the registration set is never assigned and never
advances the counter. -/
theorem c5_offsets_strictly_increasing_aligned (q ents : List Entity)
    (hcard : BIND_BUFFER_ALIGNMENT *
      (q.filter fun x => decide (x ∈ ents)).length ≤ U32_MOD) :
    (offsetInsertions q ents).map Prod.fst =
      (q.filter fun x => decide (x ∈ ents)) ∧
    (offsetInsertions q ents).map Prod.snd =
      (List.range (q.filter fun x => decide (x ∈ ents)).length).map
        (fun k => BIND_BUFFER_ALIGNMENT * k) ∧
    ((offsetInsertions q ents).map Prod.snd).Nodup ∧
    (∀ pr ∈ offsetInsertions q ents,
      BIND_BUFFER_ALIGNMENT ∣ pr.2 ∧ pr.1 ∈ q ∧ pr.1 ∈ ents) := by
  unfold offsetInsertions
  have hsnd0 := offsetInsertionsFrom_map_snd ents q 0
  simp only [Nat.zero_add] at hsnd0
  have hsnd : (offsetInsertionsFrom 0 q ents).map Prod.snd =
      (List.range (q.filter fun x => decide (x ∈ ents)).length).map
        (fun k => BIND_BUFFER_ALIGNMENT * k) := by
    rw [hsnd0]
    apply List.map_congr_left
    intro k hk
    have hklen := List.mem_range.mp hk
    have h1 : BIND_BUFFER_ALIGNMENT * (k + 1) ≤
        BIND_BUFFER_ALIGNMENT *
          (q.filter fun x => decide (x ∈ ents)).length :=
      Nat.mul_le_mul (Nat.le_refl _) hklen
    have h2 : BIND_BUFFER_ALIGNMENT * k + BIND_BUFFER_ALIGNMENT =
        BIND_BUFFER_ALIGNMENT * (k + 1) := by ring
    have hlt : BIND_BUFFER_ALIGNMENT * k < U32_MOD := by
      have hA : 0 < BIND_BUFFER_ALIGNMENT := by decide
      omega
    exact Nat.mod_eq_of_lt hlt
  refine ⟨offsetInsertionsFrom_map_fst ents q 0, hsnd, ?_, ?_⟩
  · rw [hsnd]
    apply List.Nodup.map
    · intro a b hab
      have : (256 : Nat) * a = 256 * b := by
        simpa [BIND_BUFFER_ALIGNMENT] using hab
      omega
    · exact List.nodup_range _
  · intro pr hpr
    refine ⟨?_, offsetInsertionsFrom_mem ents q 0 pr hpr⟩
    have hmem : pr.2 ∈ List.map Prod.snd (offsetInsertionsFrom 0 q ents) :=
      List.mem_map_of_mem Prod.snd hpr
    rw [hsnd] at hmem
    rcases List.mem_map.mp hmem with ⟨k, _, hk⟩
    exact ⟨k, hk.symm⟩

/-! ### Preservation infrastructure for C1 and C10 -/

theorem lookupA_isSome_insertA {α β : Type} [DecidableEq α]
    (l : List (α × β)) (k' k : α) (v : β)
    (h : (lookupA l k').isSome = true) :
    (lookupA (insertA l k v) k').isSome = true := by
  by_cases hk : k' = k
  · subst hk
    rw [lookupA_insertA_self]
    rfl
  · rw [lookupA_insertA_ne _ _ _ _ hk]
    exact h

/-- `EntriesInv` survives any renderer change that keeps existing info
lookups defined. -/
theorem EntriesInv_mono {es : List (String × DynEntry)} {r r' : RendererState}
    (hmono : ∀ k, (lookupA r.dynamic_uniform_buffer_infos k).isSome = true →
      (lookupA r'.dynamic_uniform_buffer_infos k).isSome = true)
    (h : EntriesInv es r) : EntriesInv es r' :=
  fun q hq rsc hrsc => hmono _ (h q hq rsc hrsc)

/-- The texture arm never touches the dynamic-buffer info table. -/
theorem setupSampledTextureBinding_dynInfos (rend rend' : RendererState)
    (res : ResourcesState) (e : Entity) (u : UniformsValue) (nm : String)
    (h : setupSampledTextureBinding rend res e u nm = .ok rend') :
    rend'.dynamic_uniform_buffer_infos = rend.dynamic_uniform_buffer_infos := by
  unfold setupSampledTextureBinding at h
  simp only [RendererState.createTexture] at h
  repeat' split at h
  all_goals simp at h
  all_goals subst h
  all_goals rfl

/-- The sampler arm never touches the dynamic-buffer info table. -/
theorem setupSamplerBinding_dynInfos (rend rend' : RendererState)
    (res : ResourcesState) (e : Entity) (u : UniformsValue) (nm : String)
    (h : setupSamplerBinding rend res e u nm = .ok rend') :
    rend'.dynamic_uniform_buffer_infos = rend.dynamic_uniform_buffer_infos := by
  unfold setupSamplerBinding at h
  simp only [RendererState.createSampler] at h
  repeat' split at h
  all_goals simp at h
  all_goals subst h
  all_goals rfl

/-- The `Uniform` arm: the backend's dynamic info table is untouched,
registration-set membership only grows, and every entry resource present
afterwards was present before. -/
theorem setupUniformBinding_preserves (prov prov' : Provider)
    (rend rend' : RendererState) (e : Entity) (u : UniformsValue)
    (nm : String) (dyn : Bool) (ah : Option THandle)
    (h : setupUniformBinding prov rend e u nm dyn ah = .ok (prov', rend')) :
    rend'.dynamic_uniform_buffer_infos = rend.dynamic_uniform_buffer_infos ∧
    (∀ nm0 e0, e0 ∈ entitySetOf prov nm0 → e0 ∈ entitySetOf prov' nm0) ∧
    (∀ q ∈ prov'.uniform_buffer_info_resources, ∀ rsc, q.2.1 = some rsc →
      ∃ q2 ∈ prov.uniform_buffer_info_resources, q2.2.1 = some rsc) := by
  cases dyn with
  | true =>
    cases hl : lookupA prov.uniform_buffer_info_resources nm with
    | none =>
      simp only [setupUniformBinding, hl, if_true, Except.ok.injEq,
        Prod.mk.injEq] at h
      obtain ⟨hp, hr⟩ := h
      subst hr
      refine ⟨rfl, ?_, ?_⟩
      · intro nm0 e0 hmem
        rw [← hp]
        simp only [entitySetOf, setOfEntries]
        by_cases hnm : nm0 = nm
        · subst hnm
          simp only [entitySetOf, setOfEntries, hl, Option.map_none,
            Option.getD_none] at hmem
          exact absurd hmem (List.not_mem_nil e0)
        · rw [lookupA_insertA_ne _ _ _ _ hnm]
          exact hmem
      · intro q hq rsc hrsc
        rw [← hp] at hq
        rcases mem_insertA hq with hq2 | hq2
        · rw [hq2] at hrsc
          simp at hrsc
        · exact ⟨q, hq2, hrsc⟩
    | some entry0 =>
      simp only [setupUniformBinding, hl, if_true, Except.ok.injEq,
        Prod.mk.injEq] at h
      obtain ⟨hp, hr⟩ := h
      subst hr
      refine ⟨rfl, ?_, ?_⟩
      · intro nm0 e0 hmem
        rw [← hp]
        simp only [entitySetOf, setOfEntries]
        by_cases hnm : nm0 = nm
        · subst hnm
          rw [lookupA_insertA_self]
          simp only [entitySetOf, setOfEntries, hl, Option.map_some,
            Option.getD_some] at hmem
          exact mem_insertS e hmem
        · rw [lookupA_insertA_ne _ _ _ _ hnm]
          exact hmem
      · intro q hq rsc hrsc
        rw [← hp] at hq
        rcases mem_insertA hq with hq2 | hq2
        · rw [hq2] at hrsc
          simp only at hrsc
          exact ⟨(nm, entry0), lookupA_mem hl, hrsc⟩
        · exact ⟨q, hq2, hrsc⟩
  | false =>
    cases ah with
    | none => simp [setupUniformBinding] at h
    | some handle =>
      unfold setupUniformBinding at h
      simp only [Bool.false_eq_true, if_false] at h
      repeat' split at h
      all_goals simp only [Except.ok.injEq, Prod.mk.injEq, reduceCtorEq] at h
      all_goals
        (obtain ⟨hp, hr⟩ := h
         subst hr
         subst hp
         exact ⟨rfl, fun nm0 e0 hmem => hmem, fun q hq rsc hrsc => ⟨q, hq, hrsc⟩⟩)

/-- What one provider/renderer step preserves, relative to a base state:
the dynamic info table is unchanged, registration-set membership only
grows, and every entry resource present afterwards was present before. -/
def Preserves (prov : Provider) (rend : RendererState)
    (st : Provider × RendererState) : Prop :=
  st.2.dynamic_uniform_buffer_infos = rend.dynamic_uniform_buffer_infos ∧
  (∀ nm0 e0, e0 ∈ entitySetOf prov nm0 → e0 ∈ entitySetOf st.1 nm0) ∧
  (∀ q ∈ st.1.uniform_buffer_info_resources, ∀ rsc, q.2.1 = some rsc →
    ∃ q2 ∈ prov.uniform_buffer_info_resources, q2.2.1 = some rsc)

theorem Preserves_refl (prov : Provider) (rend : RendererState) :
    Preserves prov rend (prov, rend) :=
  ⟨rfl, fun _ _ hm => hm, fun q hq _rsc hrsc => ⟨q, hq, hrsc⟩⟩

theorem Preserves_trans {prov : Provider} {rend : RendererState}
    {st st' : Provider × RendererState} (h1 : Preserves prov rend st)
    (h2 : Preserves st.1 st.2 st') : Preserves prov rend st' := by
  refine ⟨h2.1.trans h1.1, fun nm0 e0 hm => h2.2.1 nm0 e0 (h1.2.1 nm0 e0 hm), ?_⟩
  intro q hq rsc hrsc
  rcases h2.2.2 q hq rsc hrsc with ⟨q2, hq2, hq2r⟩
  exact h1.2.2 q2 hq2 rsc hq2r

theorem Preserves_DynInv {prov : Provider} {rend : RendererState}
    {st : Provider × RendererState} (h : Preserves prov rend st)
    (hinv : DynInv prov rend) : DynInv st.1 st.2 := by
  intro q hq rsc hrsc
  rcases h.2.2 q hq rsc hrsc with ⟨q2, hq2, hq2r⟩
  rw [DynInv, EntriesInv] at hinv
  have hs := hinv q2 hq2 rsc hq2r
  rw [h.1]
  exact hs

/-- One `UniformInfoIter` iteration is a `Preserves` step. -/
theorem setupUniformField_preserves (res : ResourcesState) (e : Entity)
    (u : UniformsValue) (dyn : Bool) (ah : Option THandle)
    (st st' : Provider × RendererState) (f : UniformInfo)
    (h : setupUniformField res e u dyn ah st f = .ok st') :
    Preserves st.1 st.2 st' := by
  obtain ⟨prov, rend⟩ := st
  obtain ⟨prov', rend'⟩ := st'
  cases hbt : f.bind_type
  case uniform =>
    simp only [setupUniformField, hbt] at h
    exact setupUniformBinding_preserves prov prov' rend rend' e u f.name dyn ah h
  case sampledTexture =>
    simp only [setupUniformField, hbt] at h
    cases hcall : setupSampledTextureBinding rend res e u f.name with
    | error err =>
      rw [hcall] at h
      simp [Except.map] at h
    | ok rend2 =>
      rw [hcall] at h
      simp only [Except.map, Except.ok.injEq, Prod.mk.injEq] at h
      obtain ⟨hp, hr⟩ := h
      subst hp
      subst hr
      exact ⟨setupSampledTextureBinding_dynInfos rend rend2 res e u f.name hcall,
             fun _ _ hm => hm, fun q hq rsc hrsc => ⟨q, hq, hrsc⟩⟩
  case sampler =>
    simp only [setupUniformField, hbt] at h
    cases hcall : setupSamplerBinding rend res e u f.name with
    | error err =>
      rw [hcall] at h
      simp [Except.map] at h
    | ok rend2 =>
      rw [hcall] at h
      simp only [Except.map, Except.ok.injEq, Prod.mk.injEq] at h
      obtain ⟨hp, hr⟩ := h
      subst hp
      subst hr
      exact ⟨setupSamplerBinding_dynInfos rend rend2 res e u f.name hcall,
             fun _ _ hm => hm, fun q hq rsc hrsc => ⟨q, hq, hrsc⟩⟩
  case other =>
    simp only [setupUniformField, hbt] at h
    exact absurd h (by simp)

/-- Any `foldlM` whose steps are `Preserves` steps is a `Preserves` step. -/
theorem foldlM_preserves {α : Type}
    (f : Provider × RendererState → α →
      Except String (Provider × RendererState))
    (hf : ∀ s a s', f s a = .ok s' → Preserves s.1 s.2 s')
    (l : List α) (s s' : Provider × RendererState)
    (h : List.foldlM f s l = .ok s') : Preserves s.1 s.2 s' := by
  refine foldlM_except_inv ?_ l s s' (Preserves_refl s.1 s.2) h
  intro s2 a s3 hP hok
  exact Preserves_trans hP (hf s2 a s3 hok)

/-- `setup_entity_uniform_resources` is a `Preserves` step. -/
theorem setupEntityUniformResources_preserves (prov prov' : Provider)
    (rend rend' : RendererState) (res : ResourcesState) (e : Entity)
    (u : UniformsValue) (dyn : Bool) (ah : Option THandle)
    (h : setupEntityUniformResources prov rend res e u dyn ah =
      .ok (prov', rend')) : Preserves prov rend (prov', rend') :=
  foldlM_preserves _
    (fun s a s' hok => setupUniformField_preserves res e u dyn ah s s' a hok)
    u.fields (prov, rend) (prov', rend') h

/-- `update_asset_uniforms` is a `Preserves` step. -/
theorem updateAssetUniforms_preserves (prov prov' : Provider)
    (rend rend' : RendererState) (res : ResourcesState) (w : World)
    (h : updateAssetUniforms prov rend res w = .ok (prov', rend')) :
    Preserves prov rend (prov', rend') := by
  unfold updateAssetUniforms at h
  cases hstor : res.asset_storage with
  | none =>
    rw [hstor] at h
    simp only [Except.ok.injEq, Prod.mk.injEq] at h
    obtain ⟨hp, hr⟩ := h
    subst hp
    subst hr
    exact Preserves_refl _ _
  | some storage =>
    rw [hstor] at h
    refine foldlM_preserves _ ?_ (handleQuery w) (prov, rend) (prov', rend') h
    intro s a s' hok
    cases hget : storage a.2 with
    | none =>
      rw [hget] at hok
      simp only [Except.ok.injEq] at hok
      subst hok
      exact Preserves_refl _ _
    | some uniforms =>
      rw [hget] at hok
      obtain ⟨s1, s2⟩ := s
      obtain ⟨s1', s2'⟩ := s'
      exact setupEntityUniformResources_preserves s1 s1' s2 s2' res a.1
        uniforms false (some a.2) hok

/-- The count-reset loop: registration sets are untouched, every surviving
entry has its resource, info lookups stay defined, and the entry/info
invariant is preserved. -/
theorem resetCounts_props :
    ∀ (es es' : List (String × DynEntry)) (r r' : RendererState),
      resetCounts es r = .ok (es', r') →
      (∀ nm, setOfEntries es' nm = setOfEntries es nm) ∧
      EntriesAllSome es' ∧
      (∀ k, (lookupA r.dynamic_uniform_buffer_infos k).isSome = true →
        (lookupA r'.dynamic_uniform_buffer_infos k).isSome = true) ∧
      (EntriesInv es r → EntriesInv es' r') := by
  intro es
  induction es with
  | nil =>
    intro es' r r' h
    simp only [resetCounts, Except.ok.injEq, Prod.mk.injEq] at h
    obtain ⟨h1, h2⟩ := h
    subst h1
    subst h2
    exact ⟨fun _ => rfl, fun q hq => absurd hq (List.not_mem_nil q),
           fun k hk => hk, fun _ q hq => absurd hq (List.not_mem_nil q)⟩
  | cons hd rest ih =>
    intro es' r r' h
    obtain ⟨nm0, resource, cnt, ents0⟩ := hd
    cases resource with
    | none => simp [resetCounts] at h
    | some rr =>
      cases hlook : lookupA r.dynamic_uniform_buffer_infos rr with
      | none => simp [resetCounts, hlook] at h
      | some info =>
        simp only [resetCounts, hlook] at h
        cases hrec : resetCounts rest
            (r.setDynInfo rr { info with count := 0 }) with
        | error err => rw [hrec] at h; simp [Except.map] at h
        | ok pr =>
          obtain ⟨es2, r2⟩ := pr
          rw [hrec] at h
          simp only [Except.map, Except.ok.injEq, Prod.mk.injEq] at h
          obtain ⟨h1, h2⟩ := h
          subst h1
          subst h2
          obtain ⟨ihset, ihall, ihmono, ihinv⟩ := ih es2
            (r.setDynInfo rr { info with count := 0 }) r2 hrec
          have hmono1 : ∀ k,
              (lookupA r.dynamic_uniform_buffer_infos k).isSome = true →
              (lookupA (r.setDynInfo rr { info with
                count := 0 }).dynamic_uniform_buffer_infos k).isSome = true := by
            intro k hk
            simp only [RendererState.setDynInfo]
            exact lookupA_isSome_insertA _ k rr _ hk
          refine ⟨?_, ?_, ?_, ?_⟩
          · intro nm
            by_cases hnm : nm0 = nm
            · simp [setOfEntries, lookupA, hnm]
            · have hton := ihset nm
              simp only [setOfEntries] at hton
              simp only [setOfEntries, lookupA, hnm, if_false]
              exact hton
          · intro q hq
            rcases List.mem_cons.mp hq with hq | hq
            · subst hq; rfl
            · exact ihall q hq
          · intro k hk
            exact ihmono k (hmono1 k hk)
          · intro hinv
            intro q hq rsc hrsc
            rcases List.mem_cons.mp hq with hq | hq
            · subst hq
              refine ihmono rsc (hmono1 rsc ?_)
              have he : rr = rsc := by simpa using hrsc
              rw [← he, hlook]
              rfl
            · refine ihinv ?_ q hq rsc hrsc
              intro q2 hq2 rsc2 hrsc2
              exact hmono1 rsc2
                (hinv q2 (List.mem_cons_of_mem _ hq2) rsc2 hrsc2)

/-- The count-reset loop cannot hit its unwraps when every entry has a
resource and every resource has an info record. -/
theorem resetCounts_isOk :
    ∀ (es : List (String × DynEntry)) (r : RendererState),
      EntriesAllSome es → EntriesInv es r → (resetCounts es r).isOk = true := by
  intro es
  induction es with
  | nil => intro r _ _; rfl
  | cons hd rest ih =>
    intro r hall hinv
    obtain ⟨nm0, resource, cnt, ents0⟩ := hd
    cases resource with
    | none =>
      have := hall (nm0, none, cnt, ents0) (List.mem_cons_self _ _)
      simp at this
    | some rr =>
      cases hlook : lookupA r.dynamic_uniform_buffer_infos rr with
      | none =>
        have := hinv (nm0, some rr, cnt, ents0) (List.mem_cons_self _ _) rr rfl
        rw [hlook] at this
        simp at this
      | some info =>
        simp only [resetCounts, hlook]
        have hrec : (resetCounts rest
            (r.setDynInfo rr { info with count := 0 })).isOk = true := by
          refine ih _ (fun q hq => hall q (List.mem_cons_of_mem _ hq)) ?_
          intro q hq rsc hrsc
          simp only [RendererState.setDynInfo]
          exact lookupA_isSome_insertA _ rsc rr _
            (hinv q (List.mem_cons_of_mem _ hq) rsc hrsc)
        cases hr2 : resetCounts rest (r.setDynInfo rr { info with count := 0 }) with
        | error err => rw [hr2] at hrec; simp [Except.isOk, Except.toBool] at hrec
        | ok pr => simp [hr2, Except.map, Except.isOk, Except.toBool]

/-- The allocation pass: registration sets are untouched, every resulting
entry has a resource, info lookups stay defined, and the entry/info
invariant is preserved. -/
theorem allocateDynamicBuffers_props :
    ∀ (es es' : List (String × DynEntry)) (r r' : RendererState),
      allocateDynamicBuffers es r = .ok (es', r') →
      (∀ nm, setOfEntries es' nm = setOfEntries es nm) ∧
      EntriesAllSome es' ∧
      (∀ k, (lookupA r.dynamic_uniform_buffer_infos k).isSome = true →
        (lookupA r'.dynamic_uniform_buffer_infos k).isSome = true) ∧
      (EntriesInv es r → EntriesInv es' r') := by
  intro es
  induction es with
  | nil =>
    intro es' r r' h
    simp only [allocateDynamicBuffers, Except.ok.injEq, Prod.mk.injEq] at h
    obtain ⟨h1, h2⟩ := h
    subst h1
    subst h2
    exact ⟨fun _ => rfl, fun q hq => absurd hq (List.not_mem_nil q),
           fun k hk => hk, fun _ q hq => absurd hq (List.not_mem_nil q)⟩
  | cons hd rest ih =>
    intro es' r r' h
    obtain ⟨nm0, resource, cnt, ents0⟩ := hd
    cases resource with
    | some rr =>
      cases hlook : lookupA r.dynamic_uniform_buffer_infos rr with
      | none => simp [allocateDynamicBuffers, hlook] at h
      | some info =>
        simp only [allocateDynamicBuffers, hlook] at h
        cases hrec : allocateDynamicBuffers rest
            (r.setDynInfo rr { info with count := cnt }) with
        | error err => rw [hrec] at h; simp [Except.map] at h
        | ok pr =>
          obtain ⟨es2, r2⟩ := pr
          rw [hrec] at h
          simp only [Except.map, Except.ok.injEq, Prod.mk.injEq] at h
          obtain ⟨h1, h2⟩ := h
          subst h1
          subst h2
          obtain ⟨ihset, ihall, ihmono, ihinv⟩ := ih es2 _ r2 hrec
          have hmono1 : ∀ k,
              (lookupA r.dynamic_uniform_buffer_infos k).isSome = true →
              (lookupA (r.setDynInfo rr { info with
                count := cnt }).dynamic_uniform_buffer_infos k).isSome = true := by
            intro k hk
            simp only [RendererState.setDynInfo]
            exact lookupA_isSome_insertA _ k rr _ hk
          refine ⟨?_, ?_, ?_, ?_⟩
          · intro nm
            by_cases hnm : nm0 = nm
            · simp [setOfEntries, lookupA, hnm]
            · have hton := ihset nm
              simp only [setOfEntries] at hton
              simp only [setOfEntries, lookupA, hnm, if_false]
              exact hton
          · intro q hq
            rcases List.mem_cons.mp hq with hq | hq
            · subst hq; rfl
            · exact ihall q hq
          · intro k hk
            exact ihmono k (hmono1 k hk)
          · intro hinv q hq rsc hrsc
            rcases List.mem_cons.mp hq with hq | hq
            · subst hq
              refine ihmono rsc (hmono1 rsc ?_)
              have he : rr = rsc := by simpa using hrsc
              rw [← he, hlook]
              rfl
            · refine ihinv ?_ q hq rsc hrsc
              intro q2 hq2 rsc2 hrsc2
              exact hmono1 rsc2
                (hinv q2 (List.mem_cons_of_mem _ hq2) rsc2 hrsc2)
    | none =>
      simp only [allocateDynamicBuffers, RendererState.createBuffer] at h
      cases hrec : allocateDynamicBuffers rest
          ((({ r with
               next_resource := r.next_resource + 1
               buffers := r.buffers ++
                 [⟨r.next_resource, BIND_BUFFER_ALIGNMENT * (cnt * 2),
                   COPY_DST ||| UNIFORM, none⟩] } : RendererState).addDynInfo
             r.next_resource
             { DynamicUniformBufferInfo.new with
               count := cnt, capacity := cnt * 2 }).setNamedResource nm0
            r.next_resource) with
      | error err => rw [hrec] at h; simp [Except.map] at h
      | ok pr =>
        obtain ⟨es2, r2⟩ := pr
        rw [hrec] at h
        simp only [Except.map, Except.ok.injEq, Prod.mk.injEq] at h
        obtain ⟨h1, h2⟩ := h
        subst h1
        subst h2
        obtain ⟨ihset, ihall, ihmono, ihinv⟩ := ih es2 _ r2 hrec
        have hmono1 : ∀ k,
            (lookupA r.dynamic_uniform_buffer_infos k).isSome = true →
            (lookupA ((({ r with
               next_resource := r.next_resource + 1
               buffers := r.buffers ++
                 [⟨r.next_resource, BIND_BUFFER_ALIGNMENT * (cnt * 2),
                   COPY_DST ||| UNIFORM, none⟩] } : RendererState).addDynInfo
              r.next_resource
              { DynamicUniformBufferInfo.new with
                count := cnt, capacity := cnt * 2 }).setNamedResource nm0
              r.next_resource).dynamic_uniform_buffer_infos k).isSome = true := by
          intro k hk
          simp only [RendererState.addDynInfo, RendererState.setNamedResource]
          exact lookupA_isSome_insertA _ k r.next_resource _ hk
        refine ⟨?_, ?_, ?_, ?_⟩
        · intro nm
          by_cases hnm : nm0 = nm
          · simp [setOfEntries, lookupA, hnm]
          · have hton := ihset nm
            simp only [setOfEntries] at hton
            simp only [setOfEntries, lookupA, hnm, if_false]
            exact hton
        · intro q hq
          rcases List.mem_cons.mp hq with hq | hq
          · subst hq; rfl
          · exact ihall q hq
        · intro k hk
          exact ihmono k (hmono1 k hk)
        · intro hinv q hq rsc hrsc
          rcases List.mem_cons.mp hq with hq | hq
          · subst hq
            refine ihmono rsc ?_
            have he : r.next_resource = rsc := by simpa using hrsc
            simp only [RendererState.addDynInfo, RendererState.setNamedResource]
            rw [← he, lookupA_insertA_self]
            rfl
          · refine ihinv ?_ q hq rsc hrsc
            intro q2 hq2 rsc2 hrsc2
            exact hmono1 rsc2
              (hinv q2 (List.mem_cons_of_mem _ hq2) rsc2 hrsc2)

/-- The copy pass only makes info lookups more defined. -/
theorem copyDynamicBuffers_props (w : World) :
    ∀ (es : List (String × DynEntry)) (r r' : RendererState),
      copyDynamicBuffers w es r = .ok r' →
      ∀ k, (lookupA r.dynamic_uniform_buffer_infos k).isSome = true →
        (lookupA r'.dynamic_uniform_buffer_infos k).isSome = true := by
  intro es
  induction es with
  | nil =>
    intro r r' h k hk
    simp only [copyDynamicBuffers, Except.ok.injEq] at h
    subst h
    exact hk
  | cons hd rest ih =>
    intro r r' h k hk
    obtain ⟨nm0, resource, cnt, ents0⟩ := hd
    cases resource with
    | none => simp [copyDynamicBuffers] at h
    | some rr =>
      cases hlook : lookupA r.dynamic_uniform_buffer_infos rr with
      | none => simp [copyDynamicBuffers, hlook] at h
      | some info =>
        simp only [copyDynamicBuffers, hlook, RendererState.setDynInfo,
          RendererState.createBufferMapped, RendererState.copyBufferToBuffer,
          RendererState.removeBuffer] at h
        refine ih _ r' h k ?_
        simp only
        exact lookupA_isSome_insertA _ k rr _ hk

/-- `setup_dynamic_uniform_buffers`: registration sets are untouched,
every entry ends the pass with a resource, and the entry/info invariant
is established for the resulting state. -/
theorem setupDynamicUniformBuffers_props (p p' : Provider)
    (r r' : RendererState) (w : World)
    (h : setupDynamicUniformBuffers p r w = .ok (p', r')) :
    (∀ nm, entitySetOf p' nm = entitySetOf p nm) ∧
    AllSome p' ∧
    (DynInv p r → DynInv p' r') := by
  unfold setupDynamicUniformBuffers at h
  cases halloc : allocateDynamicBuffers p.uniform_buffer_info_resources r with
  | error err => rw [halloc] at h; simp [bind, Except.bind] at h
  | ok pr =>
    obtain ⟨es2, r2⟩ := pr
    rw [halloc] at h
    cases hcopy : copyDynamicBuffers w es2 r2 with
    | error err => simp [bind, Except.bind, hcopy] at h
    | ok r3 =>
      simp only [bind, Except.bind, hcopy, Except.ok.injEq, Prod.mk.injEq] at h
      obtain ⟨h1, h2⟩ := h
      subst h1
      subst h2
      obtain ⟨hset, hall, hmono, hinv⟩ :=
        allocateDynamicBuffers_props p.uniform_buffer_info_resources es2 r r2
          halloc
      refine ⟨fun nm => hset nm, hall, ?_⟩
      intro hdyn q hq rsc hrsc
      exact copyDynamicBuffers_props w es2 r2 r3 hcopy rsc
        (hinv hdyn q hq rsc hrsc)

/-- One whole `update`: registration-set membership never shrinks, every
entry ends the frame with an allocated resource, and the entry/info
invariant is re-established. -/
theorem update_props (p p' : Provider) (r r' : RendererState)
    (res : ResourcesState) (w w' : World)
    (h : update p r res w = .ok (p', r', w')) :
    (∀ nm0 e0, e0 ∈ entitySetOf p nm0 → e0 ∈ entitySetOf p' nm0) ∧
    AllSome p' ∧
    (DynInv p r → DynInv p' r') := by
  unfold update at h
  cases hreset : resetCounts p.uniform_buffer_info_resources r with
  | error err => rw [hreset] at h; simp [bind, Except.bind] at h
  | ok pr1 =>
    obtain ⟨es1, r1⟩ := pr1
    rw [hreset] at h
    simp only [bind, Except.bind] at h
    cases hassets : updateAssetUniforms
        { p with uniform_buffer_info_resources := es1 } r1 res w with
    | error err => rw [hassets] at h; simp at h
    | ok pr2 =>
      obtain ⟨p2, r2⟩ := pr2
      rw [hassets] at h
      simp only at h
      cases hfold : (resourceQuery w).foldlM
          (fun (st : Provider × RendererState) pr =>
            setupEntityUniformResources st.1 st.2 res pr.1 pr.2 true none)
          (p2, r2) with
      | error err => rw [hfold] at h; simp at h
      | ok pr3 =>
        obtain ⟨p3, r3⟩ := pr3
        rw [hfold] at h
        simp only at h
        cases hdyn : setupDynamicUniformBuffers p3 r3 w with
        | error err => rw [hdyn] at h; simp at h
        | ok pr4 =>
          obtain ⟨p4, r4⟩ := pr4
          rw [hdyn] at h
          simp only at h
          cases hdefs : applyShaderDefsAsset res (applyShaderDefsDirect w) with
          | error err => rw [hdefs] at h; simp at h
          | ok w2 =>
            rw [hdefs] at h
            simp only [Except.ok.injEq, Prod.mk.injEq] at h
            obtain ⟨hp4, hr4, hw⟩ := h
            subst hp4
            subst hr4
            obtain ⟨hset1, _hall1, hmono1, hinv1⟩ :=
              resetCounts_props p.uniform_buffer_info_resources es1 r r1 hreset
            have hpres2 := updateAssetUniforms_preserves _ p2 _ r2 res w hassets
            have hpres3 := foldlM_preserves _
              (fun s a s' hok => setupEntityUniformResources_preserves s.1 s'.1
                s.2 s'.2 res a.1 a.2 true none hok)
              (resourceQuery w) (p2, r2) (p3, r3) hfold
            obtain ⟨hset4, hall4, hinv4⟩ :=
              setupDynamicUniformBuffers_props p3 p4 r3 r4 w hdyn
            refine ⟨?_, hall4, ?_⟩
            · intro nm0 e0 hm
              rw [hset4 nm0]
              refine hpres3.2.1 nm0 e0 (hpres2.2.1 nm0 e0 ?_)
              show e0 ∈ setOfEntries es1 nm0
              rw [hset1 nm0]
              exact hm
            · intro hd
              refine hinv4 (Preserves_DynInv hpres3 (Preserves_DynInv hpres2 ?_))
              show EntriesInv es1 r1
              exact hinv1 hd

/-! ### C10 -/

/-- C10: if the entry/info invariant holds at the start of an `update`
(which an empty provider trivially satisfies) and the `update` succeeds,
then at its end every entry of the dynamic buffer table has an allocated
resource and a backend info record — Phase B allocated a resource for
every entry that lacked one — so the count-reset loop of the next
`update`, with its two unwraps, cannot fail. -/
theorem c10_reset_unwraps_never_none (p p' : Provider) (r r' : RendererState)
    (res : ResourcesState) (w w' : World)
    (hinv : DynInv p r)
    (h : update p r res w = .ok (p', r', w')) :
    AllSome p' ∧ DynInv p' r' ∧
    (resetCounts p'.uniform_buffer_info_resources r').isOk = true := by
  obtain ⟨_, hall, hdyn⟩ := update_props p p' r r' res w w' h
  have hd := hdyn hinv
  exact ⟨hall, hd, resetCounts_isOk _ _ hall hd⟩

/-- Witness for C10 at the empty provider and empty world. -/
theorem c10_reset_unwraps_never_none_witness :
    AllSome Provider.new ∧ DynInv Provider.new RendererState.empty ∧
      (resetCounts Provider.new.uniform_buffer_info_resources
        RendererState.empty).isOk = true :=
  c10_reset_unwraps_never_none Provider.new Provider.new RendererState.empty
    RendererState.empty noAssets [] []
    (fun q hq => absurd hq (List.not_mem_nil q)) rfl

/-- C1 (amended): an entity registered to a dynamic buffer in one frame
and then removed from the world REMAINS in that buffer's registration set
after the next `update` — the set is never cleared, only the counts are —
but it is not assigned a byte offset in that `update`: offset insertions
only ever name entities produced by the live world query (and present in
the registration set). -/
theorem c1_amended_stale_stays_registered_but_unoffset (p p' : Provider)
    (r r' : RendererState) (res : ResourcesState) (w w' : World)
    (nm : String) (e : Entity)
    (hmem : e ∈ entitySetOf p nm)
    (h : update p r res w = .ok (p', r', w')) :
    e ∈ entitySetOf p' nm ∧
    (∀ (q ents : List Entity) (pr : Entity × Nat),
      pr ∈ offsetInsertions q ents → pr.1 ∈ q ∧ pr.1 ∈ ents) := by
  obtain ⟨hmono, _, _⟩ := update_props p p' r r' res w w' h
  exact ⟨hmono nm e hmem,
         fun q ents pr hpr => offsetInsertionsFrom_mem ents q 0 pr hpr⟩

/-- The provider after a frame in which entity 1 registered to `"Color"`. -/
def frame1Provider : Provider := ⟨[("Color", (some 0, 1, [1]))], []⟩

/-- The matching backend state after that frame. -/
def frame1Renderer : RendererState :=
  { RendererState.empty with
    next_resource := 1
    dynamic_uniform_buffer_infos := [(0, ⟨1, 2, [(1, 0)]⟩)] }

/-- The provider after one more `update` on a world from which entity 1
has been removed. -/
def frame2Provider : Provider := ⟨[("Color", (some 0, 0, [1]))], []⟩

/-- The matching backend state after that second `update`. -/
def frame2Renderer : RendererState :=
  { RendererState.empty with
    next_resource := 2
    buffers := [⟨1, 0, COPY_SRC, some []⟩]
    copies := [(1, 0, 0, 0, 0)]
    removed := [1]
    dynamic_uniform_buffer_infos := [(0, ⟨0, 2, [(1, 0)]⟩)] }

/-- Witness for C1: entity 1, removed from the world, is still registered
to `"Color"` after the next `update`. -/
theorem c1_amended_stale_stays_registered_witness :
    1 ∈ entitySetOf frame2Provider "Color" :=
  (c1_amended_stale_stays_registered_but_unoffset frame1Provider
    frame2Provider frame1Renderer frame2Renderer noAssets [] [] "Color" 1
    (by decide) (by rfl)).1

/-! ### Witnesses for the hypothesis-bearing theorems -/

/-- Witness for C2 at the empty cache: one destination buffer is created
and recorded for `(handle 7, "Tint")`. -/
theorem c2_asset_path_dedups_witness :
    ((setupEntityUniformResources Provider.new RendererState.empty noAssets 1
        uTint false (some 7)).toOption.map
       fun t => (lookupAsset t.1 7 "Tint", dstBuffers t.2,
                 t.2.entity_uniform_resources)) =
      some (some RendererState.empty.next_resource,
            dstBuffers RendererState.empty ++
              [⟨RendererState.empty.next_resource, BIND_BUFFER_ALIGNMENT,
                COPY_DST ||| UNIFORM, none⟩],
            RendererState.empty.entity_uniform_resources ++
              [(1, "Tint", RendererState.empty.next_resource)]) :=
  (c2_asset_path_dedups_destination_buffer Provider.new RendererState.empty
    noAssets 1 7 "Tint" uTint [9, 9, 9, 9] rfl rfl).1 rfl

/-- Witness for C3 (amended) at the pre-populated cache. -/
theorem c3_amended_hit_rebinds_witness :
    ((setupEntityUniformResources cachedTintProvider RendererState.empty
        noAssets 1 uTint false (some 7)).toOption.map
       fun t => (t.2.buffers, t.2.copies, t.2.removed,
                 t.2.entity_uniform_resources, lookupAsset t.1 7 "Tint")) =
      some (RendererState.empty.buffers ++
              [⟨RendererState.empty.next_resource,
                ([9, 9, 9, 9] : List Nat).length, COPY_SRC, some [9, 9, 9, 9]⟩],
            RendererState.empty.copies ++
              [(RendererState.empty.next_resource, 0, 42, 0,
                ([9, 9, 9, 9] : List Nat).length)],
            RendererState.empty.removed ++ [RendererState.empty.next_resource],
            RendererState.empty.entity_uniform_resources ++ [(1, "Tint", 42)],
            some 42) :=
  c3_amended_hit_rebinds_and_reuploads cachedTintProvider RendererState.empty
    noAssets 1 7 "Tint" uTint [9, 9, 9, 9] 42 rfl rfl rfl

/-- A backend state whose dynamic buffer 5 has capacity 1. -/
def smallCapRenderer : RendererState :=
  { RendererState.empty with
    next_resource := 9
    dynamic_uniform_buffer_infos := [(5, ⟨0, 1, []⟩)] }

/-- Witness for C4: with 3 registered entities and recorded capacity 1
(`logical_count` exceeds capacity), no reallocation happens; only the
count is updated. -/
theorem c4_no_realloc_witness :
    ((setupDynamicUniformBuffers ⟨[("X", (some 5, 3, [1, 2, 3]))], []⟩
        smallCapRenderer []).toOption.map
       fun t =>
         (t.1.uniform_buffer_info_resources,
          (lookupA t.2.dynamic_uniform_buffer_infos 5).map
            fun i => (i.count, i.capacity),
          dstBuffers t.2)) =
      some ([("X", (some 5, 3, [1, 2, 3]))], some (3, 1),
            dstBuffers smallCapRenderer) :=
  (c4_first_alloc_doubles_then_never_reallocates "X" 3 1 [1, 2, 3] []
    smallCapRenderer [] 5 ⟨0, 1, []⟩ rfl rfl).2

/-- Witness for C5: with query order `[1, 2, 3]` and registration set
`[1, 3]`, the insertion `(3, 256)` is aligned and names a registered
live entity. -/
theorem c5_offsets_witness :
    BIND_BUFFER_ALIGNMENT ∣ ((3, 256) : Entity × Nat).2 ∧
    ((3, 256) : Entity × Nat).1 ∈ [1, 2, 3] ∧
    ((3, 256) : Entity × Nat).1 ∈ [1, 3] :=
  (c5_offsets_strictly_increasing_aligned [1, 2, 3] [1, 3]
    (by decide)).2.2.2 (3, 256) (by decide)

/-- Witness for C6 (amended): the asset path aborts naming the binding,
while a packing step over the same value is the identity. -/
theorem c6_amended_witness :
    setupEntityUniformResources Provider.new RendererState.empty noAssets 1
        uNoBytes false (some 7) =
      .error ("failed to get data from uniform: " ++ "Color") ∧
    packStep "Color" [1] (List.replicate 256 0, 0) (1, uNoBytes) =
      (List.replicate 256 0, 0) :=
  ⟨(c6_amended_fatal_asset_path_silent_packing Provider.new
      RendererState.empty noAssets 1 7 "Color" uNoBytes rfl rfl rfl).1,
   (c6_amended_fatal_asset_path_silent_packing Provider.new
      RendererState.empty noAssets 1 7 "Color" uNoBytes rfl rfl rfl).2
     [1] (List.replicate 256 0, 0) 1⟩

/-- A value with one `SampledTexture` binding referencing texture asset 3. -/
def uTex : UniformsValue :=
  { fields := [⟨"Albedo", .sampledTexture⟩]
    bytesRef := fun _ => none
    bytesOwned := fun _ => none
    texture := fun n => if n = "Albedo" then some 3 else none
    shader_defs := none }

/-- A texture asset store holding texture asset 3. -/
def texStorage3 : TexHandle → Option Texture :=
  fun th => if th = 3 then some ⟨[7, 7]⟩ else none

/-- Resources carrying only the texture asset store above. -/
def texStorageRes : ResourcesState := ⟨none, some texStorage3⟩

/-- Witness for C9 at a cache miss: the texture is created once, cached
under handle 3 and bound to the entity. -/
theorem c9_sampled_texture_witness :
    ((setupEntityUniformResources Provider.new RendererState.empty
        texStorageRes 1 uTex false none).toOption.map
       fun t => (t.1.asset_resources, t.2.textures,
                 lookupA t.2.texture_resources 3,
                 t.2.entity_uniform_resources)) =
      some (Provider.new.asset_resources,
            RendererState.empty.textures ++
              [(RendererState.empty.next_resource, (⟨[7, 7]⟩ : Texture).data)],
            some RendererState.empty.next_resource,
            RendererState.empty.entity_uniform_resources ++
              [(1, "Albedo", RendererState.empty.next_resource)]) :=
  (c9_sampled_texture_created_once Provider.new RendererState.empty
    texStorageRes 1 "Albedo" uTex 3 false none rfl rfl).2 texStorage3
    ⟨[7, 7]⟩ rfl rfl rfl

end Bevy
